import Mathlib

/-!
Shallow embedding of the download-speed-tester repository
(src/download_speed_tester.py and src/自动化测试工具.py).

Machine reals (Python floats) are modelled as rationals `ℚ`; byte counts
are natural numbers (they are sums of `len(chunk)` values).  Concurrency
is modelled by explicit traces: the shared byte counter is the fold of the
serialized sequence of lock-protected increments, and the monitor thread
is a loop over the sequence of (flag reading, clock reading, counter
reading) triples it observes.
-/

namespace DownloadSpeedTester

/-! ## ByteCounter

In both source files the counter is `total_bytes`, initialized to `0`,
and every write is `total_bytes += chunk_len` performed under `lock`
(`download_chunk`, src/download_speed_tester.py lines 99-104 and
src/自动化测试工具.py lines 142-147).  Because every increment is
lock-protected, a run's history of writes serializes into a list of chunk
lengths; the counter observed at any moment is the fold of the prefix of
increments that happened before that moment.  `chunk_len = len(chunk)` is
a natural number. -/

/-- Counter value after a serialized list of `total_bytes += chunk_len`
increments, starting from the `total_bytes = 0` initialization. -/
def totalBytesAfter (chunks : List Nat) : Nat :=
  chunks.foldl (fun acc c => acc + c) 0

/-! ## Final statistics of one run (`single_test`, src/自动化测试工具.py)

`single_test` stores, in `self.test_results[test_name]` (lines 218-232):
`total_mb = total_bytes / (1024*1024)`, `avg_speed = total_mb / test_duration`,
the recorded sample lists, `max_speed`/`min_speed` as the max/min over the
throughput samples **with default 0 when the list is empty**, and
`avg_latency` as the mean of the latency samples **with default 0 when the
list is empty**. -/

/-- Python `max(l)` over a nonempty list, with the `... if l else 0`
default used at src/自动化测试工具.py line 229. -/
def pyMaxOrZero : List ℚ → ℚ
  | [] => 0
  | x :: xs => xs.foldl max x

/-- Python `min(l)` over a nonempty list, with the `... if l else 0`
default used at src/自动化测试工具.py line 230. -/
def pyMinOrZero : List ℚ → ℚ
  | [] => 0
  | x :: xs => xs.foldl min x

/-- Python `sum(l) / len(l) if l else 0`
(src/自动化测试工具.py line 231). -/
def pyMeanOrZero (l : List ℚ) : ℚ :=
  if l = [] then 0 else l.sum / l.length

/-- The dictionary stored in `self.test_results[test_name]`
(src/自动化测试工具.py lines 222-232).  Timestamps of the samples are
abstracted away; `download_speeds` and `latencies` hold the sampled
values. -/
structure TestResult where
  threads : Nat
  duration : Int
  total_mb : ℚ
  avg_speed : ℚ
  download_speeds : List ℚ
  latencies : List ℚ
  max_speed : ℚ
  min_speed : ℚ
  avg_latency : ℚ
  deriving DecidableEq

/-- Final statistics computed at the end of `single_test`
(src/自动化测试工具.py lines 218-232), given the total byte count and the
sample series produced by the run's threads. -/
def mkTestResult (num_threads : Nat) (test_duration : Int) (total_bytes : Nat)
    (download_speeds latencies : List ℚ) : TestResult :=
  let total_mb : ℚ := (total_bytes : ℚ) / (1024 * 1024)
  { threads := num_threads
    duration := test_duration
    total_mb := total_mb
    avg_speed := total_mb / (test_duration : ℚ)
    download_speeds := download_speeds
    latencies := latencies
    max_speed := pyMaxOrZero download_speeds
    min_speed := pyMinOrZero download_speeds
    avg_latency := pyMeanOrZero latencies }

/-! ## Control flow of one run

Neither `single_test` (src/自动化测试工具.py lines 111-238) nor
`DownloadSpeedTester.run_test` (src/download_speed_tester.py lines
223-290) validates the worker count or the duration.  Both start the
monitor thread, then start `num_threads` download threads (all daemon
threads), then `time.sleep(test_duration)`, clear `running`, and compute
the final statistics; no thread is ever joined.  A negative duration
raises `ValueError` inside `time.sleep` (after the threads have started);
a zero duration reaches `avg_speed = total_mb / test_duration` and raises
`ZeroDivisionError` there. -/

/-- Unhandled Python exceptions that can escape a run. -/
inductive RunError
  | valueError
  | zeroDivisionError
  deriving DecidableEq

/-- Observable outcome of one run: which tasks were started before the
run finished or failed, whether they were ever joined, and the returned
value or escaped exception. -/
structure RunOutcome (α : Type) where
  monitorStarted : Bool
  downloadThreadsStarted : Nat
  monitorJoined : Bool
  downloadJoined : Bool
  result : Except RunError α

/-- `single_test(num_threads, test_duration, test_name)` of
src/自动化测试工具.py (lines 111-238), parametrized by the total byte
count and the sample series that the concurrently executing threads
produce.  The monitor thread and all `num_threads` download threads are
started (lines 200-211) before `time.sleep(test_duration)` (line 214);
there is no configuration check anywhere, and no `join` call: all threads
are daemon threads that are simply abandoned. -/
def single_test (num_threads : Nat) (test_duration : Int) (total_bytes : Nat)
    (download_speeds latencies : List ℚ) : RunOutcome TestResult :=
  if test_duration < 0 then
    -- threads already started; time.sleep(negative) raises ValueError
    { monitorStarted := true
      downloadThreadsStarted := num_threads
      monitorJoined := false
      downloadJoined := false
      result := .error .valueError }
  else if test_duration = 0 then
    -- threads already started; avg_speed = total_mb / 0 raises
    { monitorStarted := true
      downloadThreadsStarted := num_threads
      monitorJoined := false
      downloadJoined := false
      result := .error .zeroDivisionError }
  else
    { monitorStarted := true
      downloadThreadsStarted := num_threads
      monitorJoined := false
      downloadJoined := false
      result := .ok (mkTestResult num_threads test_duration total_bytes
        download_speeds latencies) }

/-- Summary printed by `run_test` of src/download_speed_tester.py
(lines 266-267): `total_mb = self.total_bytes / (1024*1024)`,
`avg_speed = total_mb / self.test_duration`. -/
structure RunStats where
  total_mb : ℚ
  avg_speed : ℚ
  deriving DecidableEq

/-- `DownloadSpeedTester.run_test` of src/download_speed_tester.py
(lines 223-290), parametrized by the total byte count accumulated by the
download threads.  Same control flow as `single_test`: monitor and
download threads started (lines 242-252), `time.sleep(self.test_duration)`
(line 258), `self.running = False`, then the final statistics; no
validation of `num_threads` or `test_duration`, and no `join` call. -/
def run_test (num_threads : Nat) (test_duration : Int) (total_bytes : Nat) :
    RunOutcome RunStats :=
  if test_duration < 0 then
    { monitorStarted := true
      downloadThreadsStarted := num_threads
      monitorJoined := false
      downloadJoined := false
      result := .error .valueError }
  else if test_duration = 0 then
    { monitorStarted := true
      downloadThreadsStarted := num_threads
      monitorJoined := false
      downloadJoined := false
      result := .error .zeroDivisionError }
  else
    { monitorStarted := true
      downloadThreadsStarted := num_threads
      monitorJoined := false
      downloadJoined := false
      result := .ok
        { total_mb := (total_bytes : ℚ) / (1024 * 1024)
          avg_speed := (total_bytes : ℚ) / (1024 * 1024) / (test_duration : ℚ) } }

/-! ## The monitor loop (`monitor_performance`)

src/download_speed_tester.py lines 112-154 and src/自动化测试工具.py lines
156-198 are identical in structure:

    last_bytes = 0; last_time = time.time()
    while self.running:
        time.sleep(1)
        current_time = time.time(); current_bytes = self.total_bytes
        time_diff = current_time - last_time
        bytes_diff = current_bytes - last_bytes
        if time_diff > 0:
            speed_mbps = (bytes_diff / time_diff) / (1024*1024)
            append (timestamp, speed_mbps) to download_speeds
            ...
        last_bytes = current_bytes
        last_time = current_time

The loop is modelled over the sequence of observations the thread makes:
each iteration reads the `running` flag at the loop head, and, when it is
true, sleeps and then reads the clock and the shared counter. -/

/-- Monitor-local state: `last_bytes`, `last_time`, and the throughput
series accumulated so far. -/
structure MonState where
  last_bytes : Nat
  last_time : ℚ
  speeds : List ℚ
  deriving DecidableEq

/-- One iteration body of the monitor loop after the sleep: given the
clock and counter readings of this tick, append a throughput sample iff
`time_diff > 0`, then unconditionally update `last_bytes`/`last_time`. -/
def monitorTick (st : MonState) (current_time : ℚ) (current_bytes : Nat) :
    MonState :=
  let time_diff := current_time - st.last_time
  let bytes_diff := (current_bytes : ℚ) - (st.last_bytes : ℚ)
  if 0 < time_diff then
    { last_bytes := current_bytes
      last_time := current_time
      speeds := st.speeds ++ [bytes_diff / time_diff / (1024 * 1024)] }
  else
    { last_bytes := current_bytes
      last_time := current_time
      speeds := st.speeds }

/-- The `while self.running:` loop of `monitor_performance`, driven by
the sequence of observations the thread makes: each list element is
(the value of `running` read at the loop head, the clock reading, the
counter reading of that iteration).  When the flag reads false the loop
exits immediately — there is no code after the loop, so no further
sample is appended. -/
def monitor_performance (st : MonState) : List (Bool × ℚ × Nat) → MonState
  | [] => st
  | (flag, t, b) :: rest =>
    if flag then monitor_performance (monitorTick st t b) rest else st

/-! ## The concurrency sweep (`find_max_concurrent_connections`)

src/自动化测试工具.py lines 240-288.  The loop state is
`max_connections = 1`, `best_speed = 0`, `concurrent_results = []`,
`current_threads = 1`; each iteration with `current_threads <=
max_test_threads` calls `single_test` (abstracted here as `testFn`,
which either returns the sub-run's average throughput or raises), appends
a point, updates the best on strict improvement (lines 267-269), then
checks the degradation heuristic on the last 3 points (lines 272-277) and
breaks on it; an exception from the sub-test is caught and also breaks
the loop (lines 279-281); otherwise `current_threads += step`.  In every
case the function returns `(max_connections, best_speed)` normally.  The
model also records the accumulated points and which of the three exits
ended the loop.  The loop is given fuel `max_test_threads + 1`; `none`
models nontermination (only possible when `step = 0`). -/

/-- One `{'threads': ..., 'speed': ...}` entry of `concurrent_results`. -/
structure SweepPoint where
  threads : Nat
  speed : ℚ
  deriving DecidableEq

/-- Mutable state of the sweep loop. -/
structure SweepState where
  max_connections : Nat
  best_speed : ℚ
  concurrent_results : List SweepPoint
  deriving DecidableEq

/-- Which exit ended the sweep loop. -/
inductive StopReason
  | rangeExhausted
  | degradationDetected
  | subTestError
  deriving DecidableEq

/-- Terminal state of the sweep: the returned `(max_connections,
best_speed)` pair, the accumulated `concurrent_results`, and the exit
taken. -/
structure SweepResult where
  max_connections : Nat
  best_speed : ℚ
  points : List SweepPoint
  stopReason : StopReason
  deriving DecidableEq

/-- Python `l[-3:]`: the last `n` elements of a list. -/
def lastN (n : Nat) (l : List α) : List α :=
  l.drop (l.length - n)

/-- Python `all(s[i] >= s[i+1] for i in range(len(s)-1))`
(src/自动化测试工具.py line 274). -/
def nonIncreasingB : List ℚ → Bool
  | [] => true
  | [_] => true
  | x :: y :: rest => decide (y ≤ x) && nonIncreasingB (y :: rest)

/-- The degradation heuristic of src/自动化测试工具.py lines 272-275:
with at least 3 recorded points, the last 3 speeds are non-increasing and
the first minus the last exceeds `best_speed * 0.1`. -/
def degradationCheck (results : List SweepPoint) (best_speed : ℚ) : Bool :=
  if 3 ≤ results.length then
    let recent := (lastN 3 results).map SweepPoint.speed
    nonIncreasingB recent &&
      decide (best_speed * (1 / 10) < recent.headI - recent.getLastI)
  else false

/-- Lines 259-269 of src/自动化测试工具.py: append the new point to
`concurrent_results`, then update `best_speed`/`max_connections` iff the
new speed strictly exceeds the current best. -/
def updBest (st : SweepState) (current_threads : Nat) (avg_speed : ℚ) :
    SweepState :=
  if st.best_speed < avg_speed then
    { max_connections := current_threads
      best_speed := avg_speed
      concurrent_results := st.concurrent_results ++ [⟨current_threads, avg_speed⟩] }
  else
    { max_connections := st.max_connections
      best_speed := st.best_speed
      concurrent_results := st.concurrent_results ++ [⟨current_threads, avg_speed⟩] }

/-- The `while current_threads <= max_test_threads:` loop of
`find_max_concurrent_connections` (src/自动化测试工具.py lines 252-283).
`testFn n` abstracts `self.single_test(n, test_duration, ...)['avg_speed']`:
`.ok v` is a sub-test returning average throughput `v`, `.error` a
sub-test raising an exception (caught at line 279, which breaks the
loop). -/
def sweepLoop (testFn : Nat → Except Unit ℚ) (max_test_threads step : Nat) :
    Nat → Nat → SweepState → Option SweepResult
  | 0, _, _ => none
  | fuel + 1, current_threads, st =>
    if current_threads ≤ max_test_threads then
      match testFn current_threads with
      | .error _ =>
        some ⟨st.max_connections, st.best_speed, st.concurrent_results,
          .subTestError⟩
      | .ok avg_speed =>
        let st' := updBest st current_threads avg_speed
        if degradationCheck st'.concurrent_results st'.best_speed then
          some ⟨st'.max_connections, st'.best_speed, st'.concurrent_results,
            .degradationDetected⟩
        else
          sweepLoop testFn max_test_threads step fuel (current_threads + step) st'
    else
      some ⟨st.max_connections, st.best_speed, st.concurrent_results,
        .rangeExhausted⟩

/-- `find_max_concurrent_connections(max_test_threads, step, test_duration)`
of src/自动化测试工具.py lines 240-288, starting from `max_connections = 1`,
`best_speed = 0`, `concurrent_results = []`, `current_threads = 1`.
Fuel `max_test_threads + 1` suffices whenever `step ≥ 1`. -/
def find_max_concurrent_connections (testFn : Nat → Except Unit ℚ)
    (max_test_threads step : Nat) : Option SweepResult :=
  sweepLoop testFn max_test_threads step (max_test_threads + 1) 1 ⟨1, 0, []⟩

/-- The worker counts the sweep loop schedules: `cur, cur + step,
cur + 2*step, ...` for as long as they do not exceed
`max_test_threads`, bounded by fuel. -/
def countsFrom (max_test_threads step : Nat) : Nat → Nat → List Nat
  | 0, _ => []
  | fuel + 1, current_threads =>
    if current_threads ≤ max_test_threads then
      current_threads :: countsFrom max_test_threads step fuel (current_threads + step)
    else []

/-- The full schedule of tested worker counts: `1, 1 + step,
1 + 2*step, ...` up to `max_test_threads`. -/
def testedCounts (max_test_threads step : Nat) : List Nat :=
  countsFrom max_test_threads step (max_test_threads + 1) 1

/-- Invariant of the sweep loop's best-tracking state: `best_speed` is a
non-negative upper bound of the recorded speeds attained by the point
`max_connections` points at, `max_connections` is the smallest worker
count attaining it, and all recorded worker counts are at most the
current one. -/
def BestInv (st : SweepState) (current_threads : Nat) : Prop :=
  0 ≤ st.best_speed ∧
  (∀ p ∈ st.concurrent_results, p.speed ≤ st.best_speed) ∧
  (st.concurrent_results = [] →
    st.best_speed = 0 ∧ st.max_connections = current_threads) ∧
  (st.concurrent_results ≠ [] →
    ∃ p ∈ st.concurrent_results,
      p.threads = st.max_connections ∧ p.speed = st.best_speed) ∧
  (∀ p ∈ st.concurrent_results,
    p.speed = st.best_speed → st.max_connections ≤ p.threads) ∧
  (∀ p ∈ st.concurrent_results, p.threads ≤ current_threads)

/-- What a finished sweep guarantees about its best-tracking fields, when
at least one point was recorded: `best_speed` is the maximum of the
recorded speeds and `max_connections` the smallest worker count
attaining it. -/
def BestConcl (r : SweepResult) : Prop :=
  r.points ≠ [] →
    (∃ p ∈ r.points, p.threads = r.max_connections ∧ p.speed = r.best_speed) ∧
    (∀ q ∈ r.points, q.speed ≤ r.best_speed) ∧
    (∀ p ∈ r.points, p.speed = r.best_speed → r.max_connections ≤ p.threads)

end DownloadSpeedTester

namespace DownloadSpeedTester

/-! ## Helper lemmas -/

theorem foldl_add_shift (l : List Nat) (a : Nat) :
    l.foldl (fun acc c => acc + c) a = a + totalBytesAfter l := by
  induction l generalizing a with
  | nil => simp [totalBytesAfter]
  | cons c l ih =>
    simp only [List.foldl_cons, totalBytesAfter]
    rw [ih (a + c), ih (0 + c)]
    omega

theorem totalBytesAfter_append (l₁ l₂ : List Nat) :
    totalBytesAfter (l₁ ++ l₂) = totalBytesAfter l₁ + totalBytesAfter l₂ := by
  simp only [totalBytesAfter, List.foldl_append]
  rw [foldl_add_shift]
  rfl

/-! ## Claims -/

/-- C8: the total-bytes counter starts at zero for the run, and is
monotonically non-decreasing at every observation: each lock-protected
`total_bytes += chunk_len` adds the (non-negative, being a `Nat` length)
size of one received chunk, so the value observed after any later prefix
of the serialized increment history is at least the value observed after
any earlier prefix. -/
theorem C8_byte_counter_monotone :
    totalBytesAfter [] = 0 ∧
    (∀ (l : List Nat) (c : Nat),
      totalBytesAfter (l ++ [c]) = totalBytesAfter l + c) ∧
    (∀ (l₁ l₂ : List Nat), totalBytesAfter l₁ ≤ totalBytesAfter (l₁ ++ l₂)) := by
  refine ⟨rfl, fun l c => ?_, fun l₁ l₂ => ?_⟩
  · rw [totalBytesAfter_append]; simp [totalBytesAfter]
  · rw [totalBytesAfter_append]; omega

/-- C3: for every completed run, the reported average throughput is
`totalBytes / (1024*1024) / duration`, computed from the final byte total
and the configured duration only — the per-tick samples (`speeds`,
`lats`) do not enter the computation (both `single_test` of
src/自动化测试工具.py lines 218-219 and `run_test` of
src/download_speed_tester.py lines 266-267). -/
theorem C3_avg_throughput_from_totals (num_threads : Nat) (d : Int)
    (total_bytes : Nat) (speeds lats : List ℚ) (r : TestResult) (s : RunStats)
    (hd : 0 < d) :
    ((single_test num_threads d total_bytes speeds lats).result = .ok r →
      r.avg_speed = (total_bytes : ℚ) / (1024 * 1024) / (d : ℚ)) ∧
    ((run_test num_threads d total_bytes).result = .ok s →
      s.avg_speed = (total_bytes : ℚ) / (1024 * 1024) / (d : ℚ)) := by
  have h1 : ¬ d < 0 := by omega
  have h2 : ¬ d = 0 := by omega
  constructor
  · intro h
    simp only [single_test, if_neg h1, if_neg h2, Except.ok.injEq] at h
    subst h
    simp [mkTestResult]
  · intro h
    simp only [run_test, if_neg h1, if_neg h2, Except.ok.injEq] at h
    subst h
    rfl

/-- Witness for C3 at a concrete completed run. -/
theorem C3_avg_throughput_from_totals_witness :
    (mkTestResult 4 5 1000 [2] [3]).avg_speed =
      (1000 : ℚ) / (1024 * 1024) / ((5 : Int) : ℚ) :=
  (C3_avg_throughput_from_totals 4 5 1000 [2] [3] (mkTestResult 4 5 1000 [2] [3])
      ⟨(1000 : ℚ) / (1024 * 1024), (1000 : ℚ) / (1024 * 1024) / ((5 : Int) : ℚ)⟩
      (by norm_num)).1 (by norm_num [single_test])

/-- C2 counterexample: the code performs no configuration validation.
A run with worker count 0 and positive duration is not refused: it
completes normally and returns a result.  A run with duration 0 is not
refused before tasks start: the monitor and all 4 download threads are
started, and only afterwards does the run die of an unhandled
`ZeroDivisionError` in the average computation — not a configuration
error raised before any task starts. -/
theorem C2_counterexample :
    (single_test 0 5 0 [] []).result = .ok (mkTestResult 0 5 0 [] []) ∧
    (single_test 4 0 0 [] []).result = .error .zeroDivisionError ∧
    (single_test 4 0 0 [] []).downloadThreadsStarted = 4 ∧
    (single_test 4 0 0 [] []).monitorStarted = true ∧
    (run_test 0 5 0).result = .ok ⟨0, 0⟩ := by
  refine ⟨?_, ?_, ?_, ?_, ?_⟩ <;> norm_num [single_test, run_test]

/-- C2 amended: neither `single_test` nor `run_test` validates the
configuration.  Duration 0 starts the monitor and all download tasks and
then fails with an unhandled `ZeroDivisionError` while computing the
average; a negative duration likewise fails (with `ValueError` from
`time.sleep`) only after the tasks have started; and worker count 0 with
a positive duration is not refused at all — the run completes normally
with zero workers. -/
theorem C2_no_config_validation (num_threads : Nat) (d : Int)
    (total_bytes : Nat) (speeds lats : List ℚ) :
    ((single_test num_threads 0 total_bytes speeds lats).result =
        .error .zeroDivisionError ∧
      (single_test num_threads 0 total_bytes speeds lats).downloadThreadsStarted =
        num_threads ∧
      (single_test num_threads 0 total_bytes speeds lats).monitorStarted = true) ∧
    (0 < d →
      (single_test 0 d total_bytes speeds lats).result =
        .ok (mkTestResult 0 d total_bytes speeds lats) ∧
      (run_test 0 d total_bytes).result =
        .ok ⟨(total_bytes : ℚ) / (1024 * 1024),
          (total_bytes : ℚ) / (1024 * 1024) / (d : ℚ)⟩) ∧
    (d < 0 →
      (single_test num_threads d total_bytes speeds lats).result =
        .error .valueError ∧
      (single_test num_threads d total_bytes speeds lats).downloadThreadsStarted =
        num_threads) ∧
    ((run_test num_threads 0 total_bytes).result = .error .zeroDivisionError ∧
      (run_test num_threads 0 total_bytes).downloadThreadsStarted = num_threads) := by
  refine ⟨⟨?_, ?_, ?_⟩, fun hd => ?_, fun hd => ?_, ⟨?_, ?_⟩⟩
  · norm_num [single_test]
  · norm_num [single_test]
  · norm_num [single_test]
  · have h1 : ¬ d < 0 := by omega
    have h2 : ¬ d = 0 := by omega
    exact ⟨by simp [single_test, h1, h2], by simp [run_test, h1, h2]⟩
  · exact ⟨by simp [single_test, hd], by simp [single_test, hd]⟩
  · norm_num [run_test]
  · norm_num [run_test]

/-- Witness for C2's amended claim at a concrete configuration. -/
theorem C2_no_config_validation_witness :
    (single_test 0 5 0 [] []).result = .ok (mkTestResult 0 5 0 [] []) ∧
    (run_test 0 5 0).result =
      .ok ⟨(0 : ℚ) / (1024 * 1024), (0 : ℚ) / (1024 * 1024) / ((5 : Int) : ℚ)⟩ :=
  (C2_no_config_validation 4 5 0 [] []).2.1 (by norm_num)

/-- C7 counterexample: a completed run whose throughput-sample sequence
and latency-sample sequence are empty does not omit the min/max
throughput or the average latency — `single_test` stores the number `0`
for all three (src/自动化测试工具.py lines 229-231). -/
theorem C7_counterexample :
    (single_test 1 5 0 [] []).result = .ok (mkTestResult 1 5 0 [] []) ∧
    (mkTestResult 1 5 0 [] []).max_speed = 0 ∧
    (mkTestResult 1 5 0 [] []).min_speed = 0 ∧
    (mkTestResult 1 5 0 [] []).avg_latency = 0 := by
  refine ⟨?_, ?_, ?_, ?_⟩ <;>
    norm_num [single_test, mkTestResult, pyMaxOrZero, pyMinOrZero, pyMeanOrZero]

/-- C7 amended: when the throughput Sample sequence is empty the stored
min and max throughput are the number `0` (not omitted), and when the
latency sequence is empty the stored average latency is the number `0`
(not omitted); only downstream display code renders a non-positive
average latency as "N/A". -/
theorem C7_empty_series_stored_as_zero (n : Nat) (d : Int) (b : Nat)
    (speeds lats : List ℚ) :
    (mkTestResult n d b [] lats).max_speed = 0 ∧
    (mkTestResult n d b [] lats).min_speed = 0 ∧
    (mkTestResult n d b speeds []).avg_latency = 0 := by
  refine ⟨?_, ?_, ?_⟩ <;>
    norm_num [mkTestResult, pyMaxOrZero, pyMinOrZero, pyMeanOrZero]

/-- C10: on every monitor tick, a throughput sample is appended exactly
when `time_diff > 0`, and the appended value's divisor is that positive
`time_diff`; when the measured elapsed time is not positive, the guarded
branch is not taken, so no division is executed and no sample is
appended (src/download_speed_tester.py lines 127-134,
src/自动化测试工具.py lines 171-178). -/
theorem C10_division_guarded (st : MonState) (t : ℚ) (b : Nat) :
    (t - st.last_time ≤ 0 → (monitorTick st t b).speeds = st.speeds) ∧
    (0 < t - st.last_time →
      (monitorTick st t b).speeds =
        st.speeds ++
          [((b : ℚ) - (st.last_bytes : ℚ)) / (t - st.last_time) / (1024 * 1024)]) ∧
    ((monitorTick st t b).speeds ≠ st.speeds → 0 < t - st.last_time) := by
  refine ⟨fun h => ?_, fun h => ?_, fun h => ?_⟩
  · simp [monitorTick, not_lt.mpr h]
  · simp [monitorTick, h]
  · by_contra hc
    push_neg at hc
    exact h (by simp [monitorTick, not_lt.mpr hc])

/-- Witness for C10 at a concrete tick with positive elapsed time. -/
theorem C10_division_guarded_witness :
    (monitorTick ⟨0, 0, []⟩ 1 5).speeds =
      [] ++ [(((5 : Nat) : ℚ) - ((0 : Nat) : ℚ)) / ((1 : ℚ) - 0) / (1024 * 1024)] :=
  (C10_division_guarded ⟨0, 0, []⟩ 1 5).2.1 (by norm_num)

/-- C9 counterexample: the monitor observes the cleared `running` flag
at its loop head and exits at once with no final flushing tick.  Here the
first iteration samples the 0→100 byte delta; 100 further bytes then
accumulate, cancellation is signalled, and the monitor (reading the flag
as false) exits: the final sample sequence holds only the first tick's
sample, the 100-byte delta pending at cancellation is dropped
(`last_bytes` stays 100 while the counter reads 200).  Moreover the
monitor thread is a daemon thread that the runner never joins. -/
theorem C9_counterexample :
    monitor_performance ⟨0, 0, []⟩ [(true, 1, 100), (false, 2, 200)] =
      ⟨100, 1, [100 / 1048576]⟩ ∧
    (single_test 4 5 0 [] []).monitorJoined = false ∧
    (run_test 4 5 0).monitorJoined = false := by
  refine ⟨?_, ?_, ?_⟩ <;>
    norm_num [monitor_performance, monitorTick, single_test, run_test]

/-- C9 amended: when the sampler reads the cleared flag at the top of
its `while self.running:` loop it exits immediately, performing no
further tick, so any byte-count delta accumulated since its previous
tick is never flushed into a Sample; an iteration whose flag read was
still true does complete its tick.  The monitor thread is a daemon
thread and is never joined by the runner. -/
theorem C9_no_final_tick_no_join (st : MonState) (t : ℚ) (b : Nat)
    (rest : List (Bool × ℚ × Nat)) (n bytes : Nat) (d : Int)
    (speeds lats : List ℚ) :
    monitor_performance st ((false, t, b) :: rest) = st ∧
    monitor_performance st ((true, t, b) :: rest) =
      monitor_performance (monitorTick st t b) rest ∧
    (single_test n d bytes speeds lats).monitorJoined = false ∧
    (run_test n d bytes).monitorJoined = false := by
  refine ⟨by simp [monitor_performance], by simp [monitor_performance], ?_, ?_⟩
  · unfold single_test
    split
    · rfl
    · split <;> rfl
  · unfold run_test
    split
    · rfl
    · split <;> rfl

/-- C6 counterexample: a sweep whose very first sub-run raises does not
surface the error to the caller — `find_max_concurrent_connections`
catches the exception (src/自动化测试工具.py lines 279-281), breaks, and
returns `(max_connections, best_speed) = (1, 0)` normally, exactly as if
the sweep had merely stopped early. -/
theorem C6_counterexample :
    find_max_concurrent_connections (fun _ => .error ()) 10 1 =
      some ⟨1, 0, [], .subTestError⟩ := by
  norm_num [find_max_concurrent_connections, sweepLoop]

/-- C6 amended: a sub-run failure does abort the sweep (no further
worker counts are tested), but the error is swallowed, not surfaced: the
`except` handler catches it and the sweep returns normally with the
state accumulated before the failing step. -/
theorem C6_subtest_error_swallowed (testFn : Nat → Except Unit ℚ)
    (max_test_threads step fuel current_threads : Nat) (st : SweepState)
    (e : Unit) (hle : current_threads ≤ max_test_threads)
    (herr : testFn current_threads = .error e) :
    sweepLoop testFn max_test_threads step (fuel + 1) current_threads st =
      some ⟨st.max_connections, st.best_speed, st.concurrent_results,
        .subTestError⟩ := by
  simp [sweepLoop, hle, herr]

/-- Witness for C6's amended claim: the loop with an erroring sub-test
returns the prior state normally. -/
theorem C6_subtest_error_swallowed_witness :
    sweepLoop (fun _ => .error ()) 10 1 11 1 ⟨1, 0, []⟩ =
      some ⟨1, 0, [], .subTestError⟩ :=
  C6_subtest_error_swallowed (fun _ => .error ()) 10 1 10 1 ⟨1, 0, []⟩ ()
    (by norm_num) rfl

/-- C1: after recording a point (and updating the best), if at least 3
points exist, the last 3 recorded throughputs are non-increasing in
recording order, and the first of those 3 minus the last exceeds
`0.1 * best`, the sweep stops at once with the degradation exit; and on
the synthetic per-step throughputs `[10, 8, 6]` MB/s the sweep stops
after the third point with that exit. -/
theorem C1_degradation_detection :
    (∀ (testFn : Nat → Except Unit ℚ) (max_t step fuel current : Nat)
        (st : SweepState) (v : ℚ),
      current ≤ max_t → testFn current = .ok v →
      3 ≤ (updBest st current v).concurrent_results.length →
      nonIncreasingB
        ((lastN 3 (updBest st current v).concurrent_results).map
          SweepPoint.speed) = true →
      (updBest st current v).best_speed * (1 / 10) <
          ((lastN 3 (updBest st current v).concurrent_results).map
            SweepPoint.speed).headI -
          ((lastN 3 (updBest st current v).concurrent_results).map
            SweepPoint.speed).getLastI →
      sweepLoop testFn max_t step (fuel + 1) current st =
        some ⟨(updBest st current v).max_connections,
          (updBest st current v).best_speed,
          (updBest st current v).concurrent_results, .degradationDetected⟩) ∧
    find_max_concurrent_connections
        (fun n => .ok (if n = 1 then (10 : ℚ) else if n = 2 then 8 else 6)) 10 1 =
      some ⟨1, 10, [⟨1, 10⟩, ⟨2, 8⟩, ⟨3, 6⟩], .degradationDetected⟩ := by
  constructor
  · intro testFn max_t step fuel current st v hle hok hlen hmono hdecl
    have hdeg : degradationCheck (updBest st current v).concurrent_results
        (updBest st current v).best_speed = true := by
      unfold degradationCheck
      rw [if_pos hlen]
      simp only [Bool.and_eq_true, decide_eq_true_eq]
      exact ⟨hmono, hdecl⟩
    simp [sweepLoop, hle, hok, hdeg]
  · norm_num [find_max_concurrent_connections, sweepLoop, updBest,
      degradationCheck, nonIncreasingB, lastN, List.getLastI, List.headI]

/-- Witness for C1 at the third step of the `[10, 8, 6]` example. -/
theorem C1_degradation_detection_witness :
    sweepLoop (fun n => .ok (if n = 1 then (10 : ℚ) else if n = 2 then 8 else 6))
        10 1 9 3 ⟨1, 10, [⟨1, 10⟩, ⟨2, 8⟩]⟩ =
      some ⟨(updBest ⟨1, 10, [⟨1, 10⟩, ⟨2, 8⟩]⟩ 3 6).max_connections,
        (updBest ⟨1, 10, [⟨1, 10⟩, ⟨2, 8⟩]⟩ 3 6).best_speed,
        (updBest ⟨1, 10, [⟨1, 10⟩, ⟨2, 8⟩]⟩ 3 6).concurrent_results,
        .degradationDetected⟩ :=
  C1_degradation_detection.1
    (fun n => .ok (if n = 1 then (10 : ℚ) else if n = 2 then 8 else 6))
    10 1 8 3 ⟨1, 10, [⟨1, 10⟩, ⟨2, 8⟩]⟩ 6
    (by norm_num) (by norm_num) (by norm_num [updBest])
    (by norm_num [updBest, lastN, nonIncreasingB])
    (by norm_num [updBest, lastN, List.headI, List.getLastI])

end DownloadSpeedTester

namespace DownloadSpeedTester

/-! ## Sweep loop invariants (helper lemmas for C4 and C5) -/

theorem updBest_results (st : SweepState) (c : Nat) (v : ℚ) :
    (updBest st c v).concurrent_results = st.concurrent_results ++ [⟨c, v⟩] := by
  unfold updBest
  split <;> rfl

theorem updBest_bestInv (st : SweepState) (current : Nat) (v : ℚ)
    (hv : 0 ≤ v) (h : BestInv st current) :
    BestInv (updBest st current v) current := by
  obtain ⟨hnn, hub, hemp, hach, hmin, hbd⟩ := h
  unfold updBest
  by_cases hlt : st.best_speed < v
  · rw [if_pos hlt]
    refine ⟨hv, ?_, ?_, ?_, ?_, ?_⟩
    · intro p hp
      rcases List.mem_append.mp hp with hp | hp
      · exact le_of_lt (lt_of_le_of_lt (hub p hp) hlt)
      · simp at hp
        subst hp
        exact le_refl v
    · intro habs
      simp at habs
    · intro _
      exact ⟨⟨current, v⟩, List.mem_append_right _ (by simp), rfl, rfl⟩
    · intro p hp hpv
      rcases List.mem_append.mp hp with hp | hp
      · exact absurd hpv (ne_of_lt (lt_of_le_of_lt (hub p hp) hlt))
      · simp at hp
        subst hp
        exact le_refl current
    · intro p hp
      rcases List.mem_append.mp hp with hp | hp
      · exact hbd p hp
      · simp at hp
        subst hp
        exact le_refl current
  · rw [if_neg hlt]
    push_neg at hlt
    refine ⟨hnn, ?_, ?_, ?_, ?_, ?_⟩
    · intro p hp
      rcases List.mem_append.mp hp with hp | hp
      · exact hub p hp
      · simp at hp
        subst hp
        exact hlt
    · intro habs
      simp at habs
    · intro _
      by_cases hres : st.concurrent_results = []
      · obtain ⟨hb0, hmc⟩ := hemp hres
        have hv0 : v = st.best_speed := le_antisymm hlt (hb0 ▸ hv)
        exact ⟨⟨current, v⟩, List.mem_append_right _ (by simp), by rw [hmc], hv0⟩
      · obtain ⟨p, hp, hpt, hps⟩ := hach hres
        exact ⟨p, List.mem_append_left _ hp, hpt, hps⟩
    · intro p hp hpv
      rcases List.mem_append.mp hp with hp | hp
      · exact hmin p hp hpv
      · simp at hp
        subst hp
        by_cases hres : st.concurrent_results = []
        · exact (hemp hres).2 ▸ le_refl current
        · obtain ⟨q, hq, hqt, _⟩ := hach hres
          exact hqt ▸ hbd q hq
    · intro p hp
      rcases List.mem_append.mp hp with hp | hp
      · exact hbd p hp
      · simp at hp
        subst hp
        exact le_refl current

theorem bestInv_mono (st : SweepState) (c c' : Nat) (hcc : c ≤ c')
    (hne : st.concurrent_results ≠ []) (h : BestInv st c) : BestInv st c' := by
  obtain ⟨hnn, hub, _, hach, hmin, hbd⟩ := h
  exact ⟨hnn, hub, fun habs => absurd habs hne, hach, hmin,
    fun p hp => le_trans (hbd p hp) hcc⟩

theorem bestInv_concl (st : SweepState) (c : Nat) (reason : StopReason)
    (h : BestInv st c) :
    BestConcl ⟨st.max_connections, st.best_speed, st.concurrent_results, reason⟩ := by
  intro hne
  obtain ⟨_, hub, _, hach, hmin, _⟩ := h
  exact ⟨hach hne, hub, hmin⟩

theorem sweepLoop_bestInv (testFn : Nat → Except Unit ℚ) (max_t step : Nat)
    (hnn : ∀ n v, testFn n = .ok v → 0 ≤ v) :
    ∀ (fuel current : Nat) (st : SweepState) (r : SweepResult),
      BestInv st current →
      sweepLoop testFn max_t step fuel current st = some r →
      BestConcl r := by
  intro fuel
  induction fuel with
  | zero =>
    intro current st r _ h
    simp [sweepLoop] at h
  | succ fuel ih =>
    intro current st r hinv h
    simp only [sweepLoop] at h
    by_cases hle : current ≤ max_t
    · rw [if_pos hle] at h
      cases htf : testFn current with
      | error e =>
        simp only [htf] at h
        cases h
        exact bestInv_concl st current .subTestError hinv
      | ok v =>
        simp only [htf] at h
        have hinv' : BestInv (updBest st current v) current :=
          updBest_bestInv st current v (hnn current v htf) hinv
        by_cases hdeg : degradationCheck (updBest st current v).concurrent_results
            (updBest st current v).best_speed = true
        · rw [if_pos hdeg] at h
          cases h
          exact bestInv_concl (updBest st current v) current .degradationDetected hinv'
        · rw [if_neg hdeg] at h
          refine ih (current + step) (updBest st current v) r ?_ h
          refine bestInv_mono (updBest st current v) current (current + step)
            (Nat.le_add_right _ _) ?_ hinv'
          rw [updBest_results]
          simp
    · rw [if_neg hle] at h
      cases h
      exact bestInv_concl st current .rangeExhausted hinv

/-- C4: for every sweep that records at least one point, the returned
best throughput is the maximum of the recorded points' throughputs, and
the returned best worker count is the smallest worker count attaining
that maximum (the update at src/自动化测试工具.py lines 267-269 fires
only on strict improvement, so ties keep the earlier, smaller count).
Sub-test throughputs are non-negative, being
`totalBytes / 1MB / duration` values. -/
theorem C4_best_point_tracking (testFn : Nat → Except Unit ℚ)
    (max_t step : Nat) (r : SweepResult)
    (hnn : ∀ n v, testFn n = .ok v → 0 ≤ v)
    (hrun : find_max_concurrent_connections testFn max_t step = some r)
    (hne : r.points ≠ []) :
    (∃ p ∈ r.points, p.threads = r.max_connections ∧ p.speed = r.best_speed) ∧
    (∀ q ∈ r.points, q.speed ≤ r.best_speed) ∧
    (∀ p ∈ r.points, p.speed = r.best_speed → r.max_connections ≤ p.threads) := by
  have hinv : BestInv ⟨1, 0, []⟩ 1 :=
    ⟨le_refl 0, by simp, by simp, by simp, by simp, by simp⟩
  exact sweepLoop_bestInv testFn max_t step hnn (max_t + 1) 1 ⟨1, 0, []⟩ r
    hinv hrun hne

/-- Witness for C4 on the concrete `[5, 6, 7, 8]` sweep. -/
theorem C4_best_point_tracking_witness :
    (∃ p ∈ ([⟨1, 5⟩, ⟨2, 6⟩, ⟨3, 7⟩, ⟨4, 8⟩] : List SweepPoint),
        p.threads = 4 ∧ p.speed = 8) ∧
    (∀ q ∈ ([⟨1, 5⟩, ⟨2, 6⟩, ⟨3, 7⟩, ⟨4, 8⟩] : List SweepPoint), q.speed ≤ 8) ∧
    (∀ p ∈ ([⟨1, 5⟩, ⟨2, 6⟩, ⟨3, 7⟩, ⟨4, 8⟩] : List SweepPoint),
        p.speed = 8 → 4 ≤ p.threads) :=
  C4_best_point_tracking (fun n => .ok ((4 + n : Nat) : ℚ)) 4 1
    ⟨4, 8, [⟨1, 5⟩, ⟨2, 6⟩, ⟨3, 7⟩, ⟨4, 8⟩], .rangeExhausted⟩
    (by
      intro n v h
      injection h with h
      subst h
      positivity)
    (by norm_num [find_max_concurrent_connections, sweepLoop, updBest,
      degradationCheck, nonIncreasingB, lastN, List.getLastI, List.headI])
    (by simp)

end DownloadSpeedTester

namespace DownloadSpeedTester

theorem countsFrom_shape (max_t step : Nat) :
    ∀ (fuel cur c : Nat), c ∈ countsFrom max_t step fuel cur →
      c ≤ max_t ∧ ∃ k, c = cur + k * step := by
  intro fuel
  induction fuel with
  | zero =>
    intro cur c h
    simp [countsFrom] at h
  | succ fuel ih =>
    intro cur c h
    rw [countsFrom] at h
    by_cases hle : cur ≤ max_t
    · rw [if_pos hle] at h
      rcases List.mem_cons.mp h with rfl | h'
      · exact ⟨hle, 0, by simp⟩
      · obtain ⟨hc, k, hk⟩ := ih (cur + step) c h'
        refine ⟨hc, k + 1, ?_⟩
        rw [hk]
        ring
    · rw [if_neg hle] at h
      simp at h

theorem countsFrom_complete (max_t step : Nat) :
    ∀ (fuel k cur : Nat), k < fuel → cur + k * step ≤ max_t →
      cur + k * step ∈ countsFrom max_t step fuel cur := by
  intro fuel
  induction fuel with
  | zero =>
    intro k cur hk
    omega
  | succ fuel ih =>
    intro k cur hk hle
    rw [countsFrom]
    cases k with
    | zero =>
      simp only [Nat.zero_mul, Nat.add_zero] at hle ⊢
      rw [if_pos hle]
      exact List.mem_cons_self _ _
    | succ k =>
      have hcur : cur ≤ max_t := le_trans (Nat.le_add_right _ _) hle
      rw [if_pos hcur]
      have harith : cur + (k + 1) * step = cur + step + k * step := by ring
      rw [harith] at hle ⊢
      exact List.mem_cons_of_mem _ (ih k (cur + step) (by omega) hle)

theorem sweepLoop_range_schedule (testFn : Nat → Except Unit ℚ)
    (max_t step : Nat) :
    ∀ (fuel cur : Nat) (st : SweepState) (r : SweepResult),
      sweepLoop testFn max_t step fuel cur st = some r →
      r.stopReason = .rangeExhausted →
      r.points.map SweepPoint.threads =
        st.concurrent_results.map SweepPoint.threads ++
          countsFrom max_t step fuel cur := by
  intro fuel
  induction fuel with
  | zero =>
    intro cur st r h
    simp [sweepLoop] at h
  | succ fuel ih =>
    intro cur st r h hreason
    simp only [sweepLoop] at h
    by_cases hle : cur ≤ max_t
    · rw [if_pos hle] at h
      cases htf : testFn cur with
      | error e =>
        simp only [htf] at h
        cases h
        simp at hreason
      | ok v =>
        simp only [htf] at h
        by_cases hdeg : degradationCheck (updBest st cur v).concurrent_results
            (updBest st cur v).best_speed = true
        · rw [if_pos hdeg] at h
          cases h
          simp at hreason
        · rw [if_neg hdeg] at h
          have hrec := ih (cur + step) (updBest st cur v) r h hreason
          rw [countsFrom, if_pos hle]
          rw [hrec, updBest_results]
          simp
    · rw [if_neg hle] at h
      cases h
      rw [countsFrom, if_neg hle]
      simp

theorem sweepLoop_terminates (testFn : Nat → Except Unit ℚ) (max_t step : Nat)
    (hstep : 1 ≤ step) (htot : ∀ n, ∃ v, testFn n = .ok v) :
    ∀ (m k : Nat) (st : SweepState), m = max_t + 1 - k → k ≤ max_t →
      ∃ r, sweepLoop testFn max_t step m (1 + k * step) st = some r ∧
        r.stopReason ≠ .subTestError := by
  intro m
  induction m with
  | zero =>
    intro k st hm hk
    omega
  | succ m ih =>
    intro k st hm hk
    by_cases hle : 1 + k * step ≤ max_t
    · obtain ⟨v, hv⟩ := htot (1 + k * step)
      by_cases hdeg : degradationCheck
          (updBest st (1 + k * step) v).concurrent_results
          (updBest st (1 + k * step) v).best_speed = true
      · refine ⟨⟨(updBest st (1 + k * step) v).max_connections,
          (updBest st (1 + k * step) v).best_speed,
          (updBest st (1 + k * step) v).concurrent_results,
          .degradationDetected⟩, ?_, by simp⟩
        simp only [sweepLoop]
        rw [if_pos hle]
        simp only [hv]
        rw [if_pos hdeg]
      · have hks : k ≤ k * step := by
          calc k = k * 1 := (Nat.mul_one k).symm
          _ ≤ k * step := Nat.mul_le_mul_left k hstep
        obtain ⟨r, hr, hr2⟩ := ih (k + 1) (updBest st (1 + k * step) v)
          (by omega) (by omega)
        refine ⟨r, ?_, hr2⟩
        simp only [sweepLoop]
        rw [if_pos hle]
        simp only [hv]
        rw [if_neg hdeg]
        have harg : 1 + k * step + step = 1 + (k + 1) * step := by ring
        rw [harg]
        exact hr
    · refine ⟨⟨st.max_connections, st.best_speed, st.concurrent_results,
        .rangeExhausted⟩, ?_, by simp⟩
      simp only [sweepLoop]
      rw [if_neg hle]

/-- C5: the sweep schedules exactly the worker counts `1, 1 + step,
1 + 2*step, ...` not exceeding `maxWorkers` (parts 1 and 2); a sweep
that ends with the range-exhausted exit has run one sub-test for every
scheduled count, in order (part 3); with failure-free sub-tests and a
positive step the loop always terminates, and not via the error exit
(part 4); and on the strictly increasing synthetic throughputs
`[5, 6, 7, 8]` with `maxWorkers = 4`, `step = 1`, the sweep tests every
count and ends with the range-exhausted exit, no early termination
(part 5). -/
theorem C5_schedule_range_exhaustion :
    (∀ (max_t step : Nat), ∀ c ∈ testedCounts max_t step,
      c ≤ max_t ∧ ∃ k, c = 1 + k * step) ∧
    (∀ (max_t step k : Nat), 1 ≤ step → 1 + k * step ≤ max_t →
      1 + k * step ∈ testedCounts max_t step) ∧
    (∀ (testFn : Nat → Except Unit ℚ) (max_t step : Nat) (r : SweepResult),
      find_max_concurrent_connections testFn max_t step = some r →
      r.stopReason = .rangeExhausted →
      r.points.map SweepPoint.threads = testedCounts max_t step) ∧
    (∀ (testFn : Nat → Except Unit ℚ) (max_t step : Nat),
      1 ≤ step → (∀ n, ∃ v, testFn n = .ok v) →
      ∃ r, find_max_concurrent_connections testFn max_t step = some r ∧
        r.stopReason ≠ .subTestError) ∧
    find_max_concurrent_connections (fun n => .ok ((4 + n : Nat) : ℚ)) 4 1 =
      some ⟨4, 8, [⟨1, 5⟩, ⟨2, 6⟩, ⟨3, 7⟩, ⟨4, 8⟩], .rangeExhausted⟩ := by
  refine ⟨?_, ?_, ?_, ?_, ?_⟩
  · intro max_t step c hc
    exact countsFrom_shape max_t step (max_t + 1) 1 c hc
  · intro max_t step k hstep hle
    refine countsFrom_complete max_t step (max_t + 1) k 1 ?_ hle
    have hks : k ≤ k * step := by
      calc k = k * 1 := (Nat.mul_one k).symm
      _ ≤ k * step := Nat.mul_le_mul_left k hstep
    omega
  · intro testFn max_t step r h hreason
    have hrec := sweepLoop_range_schedule testFn max_t step (max_t + 1) 1
      ⟨1, 0, []⟩ r h hreason
    simpa [testedCounts] using hrec
  · intro testFn max_t step hstep htot
    have hterm := sweepLoop_terminates testFn max_t step hstep htot
      (max_t + 1) 0 ⟨1, 0, []⟩ (by omega) (by omega)
    simpa [find_max_concurrent_connections] using hterm
  · norm_num [find_max_concurrent_connections, sweepLoop, updBest,
      degradationCheck, nonIncreasingB, lastN, List.getLastI, List.headI]

/-- Witness for C5 on the concrete `[5, 6, 7, 8]` range-exhausted
sweep. -/
theorem C5_schedule_range_exhaustion_witness :
    ([⟨1, 5⟩, ⟨2, 6⟩, ⟨3, 7⟩, ⟨4, 8⟩] : List SweepPoint).map SweepPoint.threads =
      testedCounts 4 1 :=
  C5_schedule_range_exhaustion.2.2.1 (fun n => .ok ((4 + n : Nat) : ℚ)) 4 1
    ⟨4, 8, [⟨1, 5⟩, ⟨2, 6⟩, ⟨3, 7⟩, ⟨4, 8⟩], .rangeExhausted⟩
    (by norm_num [find_max_concurrent_connections, sweepLoop, updBest,
      degradationCheck, nonIncreasingB, lastN, List.getLastI, List.headI])
    rfl

end DownloadSpeedTester
